import Mathlib

set_option maxRecDepth 4000
set_option maxHeartbeats 2000000

namespace N64

/-! Shallow embedding of n64io.py.

The CRC engine (`addr_crc`) and the wire-level command framing
(`Wire.do_cmd`, `Wire.do_pak_read`) are embedded directly over an
abstract byte channel.  The session layer (accessory probes, Transfer
Pak power / window management, SRAM dump and restore commands) is
embedded over an abstract block-level bus (`PakBus`), the boundary the
program itself draws at `_do_pak_read` / `_do_pak_write`; a ghost event
log records every bus access so that frame-effect claims can be stated
as properties of the recorded trace. -/

/-- One iteration of the CRC loop body of `addr_crc` (n64io.py lines 39-42):
shift the register left, OR in the current bit, and reduce with 0x35
whenever bit 0x20 is set. -/
def crcStep (crc bit : Nat) : Nat :=
  let c := (crc <<< 1) ||| bit
  if c &&& 0x20 ≠ 0 then c ^^^ 0x35 else c

/-- The address CRC of n64io.py lines 24-43: register seeded with
`addr >>> 11`, then eleven iterations over bit positions 10 down to 0. -/
def addr_crc (addr : Nat) : Nat :=
  (List.range 11).reverse.foldl
    (fun crc i => crcStep crc (if addr &&& (1 <<< i) ≠ 0 then 1 else 0))
    (addr >>> 11)

/-- The algorithm exactly as the specification sentence words it: a 5-bit
register seeded from `addr >>> 11` that then consumes the eleven address
bits above the reserved low five bits (bit 15 down to bit 5),
most-significant first. -/
def addr_crc_spec_literal (addr : Nat) : Nat :=
  (List.range 11).foldl
    (fun crc j => crcStep crc (if addr &&& (1 <<< (15 - j)) ≠ 0 then 1 else 0))
    (addr >>> 11)

/-- The standard bit-serial CRC of the eleven data bits (bit 15 down to
bit 5) from a zero seed, followed by five zero augmentation steps for the
reserved low bits.  This is the reference the code is compared against. -/
def addr_crc_standard (addr : Nat) : Nat :=
  (((List.range 11).map fun j => if addr &&& (1 <<< (15 - j)) ≠ 0 then 1 else 0)
    ++ List.replicate 5 0).foldl crcStep 0

/-! ## Wire level: command framing (n64io.py lines 60-88) -/

/-- The byte channel the surrounding tool opens: an external collaborator
offering a blocking write of a byte sequence and a blocking read of a
requested number of bytes. -/
structure Chan (σ : Type) where
  write : σ → List Nat → σ
  read : σ → Nat → List Nat × σ

namespace Wire

/-- The command transport of `_do_cmd` (lines 60-67): prepend the two
header bytes (command length, expected response length), write the frame,
read exactly `resplen` bytes back. -/
def do_cmd (ch : Chan σ) (s : σ) (cmdbuf : List Nat) (resplen : Nat) :
    List Nat × σ :=
  let s1 := ch.write s ([cmdbuf.length, resplen] ++ cmdbuf)
  ch.read s1 resplen

/-- The block read of `_do_pak_read` (lines 81-88): OR the address CRC
into the address, send opcode 2 with the tagged address big-endian,
request 33 bytes, keep the first 32. -/
def do_pak_read (ch : Chan σ) (s : σ) (addr : Nat) : List Nat × σ :=
  let a := addr ||| addr_crc addr
  let r := do_cmd ch s [2, a >>> 8, a &&& 0xff] 33
  (r.1.take 32, r.2)

end Wire

/-! ## Session level: block bus, controller state, monad -/

/-- Errors a session computation can surface: a transport failure of the
byte channel, a `sys.exit(1)` from a failed check, a Python
`AttributeError` (attribute read before first assignment), and an
`IndexError` (sequence index out of range). -/
inductive Err where
  | transport : Err
  | sysExit : Err
  | attrError : Err
  | indexError : Err
deriving DecidableEq

/-- Ghost trace of block-bus accesses: a block read of an address, or a
block write of a payload to an address. -/
inductive Ev where
  | rd : Nat → Ev
  | wr : Nat → List Nat → Ev
deriving DecidableEq

/-- Controller-object state: the byte-channel state, the
`_tpak_high_bits` attribute (`none` while the attribute does not exist
yet), the remaining stdin blocks, the stdout blocks written so far, and
the ghost access log. -/
structure CtrlSt (σ : Type) where
  chan : σ
  tpakHigh : Option Int
  input : List (List Nat)
  output : List (List Nat)
  log : List Ev

/-- Outcome of a session computation: a value or an error, either way
with the state at that point (errors keep the state so that cleanup
brackets can be modelled). -/
inductive MRes (σ : Type) (α : Type) where
  | ok : α → CtrlSt σ → MRes σ α
  | err : Err → CtrlSt σ → MRes σ α

/-- A session computation over channel-state type `σ`. -/
def M (σ : Type) (α : Type) : Type := CtrlSt σ → MRes σ α

def M.pure (a : α) : M σ α := fun s => .ok a s

def M.bind (x : M σ α) (f : α → M σ β) : M σ β := fun s =>
  match x s with
  | .ok a s1 => f a s1
  | .err e s1 => .err e s1

def M.throw (e : Err) : M σ α := fun s => .err e s

/-- Python `try ... finally`: run the action, then the finalizer from the
state the action left behind; an error in the finalizer replaces the
action's outcome, otherwise the action's outcome is kept. -/
def tryFinally (x : M σ α) (fin : M σ Unit) : M σ α := fun s =>
  match x s with
  | .ok a s1 =>
    match fin s1 with
    | .ok _ s2 => .ok a s2
    | .err e2 s2 => .err e2 s2
  | .err e s1 =>
    match fin s1 with
    | .ok _ s2 => .err e s2
    | .err e2 s2 => .err e2 s2

/-- The block-level expansion bus, the boundary drawn by
`_do_status` / `_do_pak_read` / `_do_pak_write`.  Each operation may fail
(transport failure) and yields the next channel state either way. -/
structure PakBus (σ : Type) where
  status : σ → Except Err (List Nat) × σ
  read : σ → Nat → Except Err (List Nat) × σ
  write : σ → Nat → List Nat → Except Err (List Nat) × σ

/-- Raw status request, logged free (no claim observes status frames). -/
def do_status (b : PakBus σ) : M σ (List Nat) := fun st =>
  match b.status st.chan with
  | (.ok v, c) => .ok v { st with chan := c }
  | (.error e, c) => .err e { st with chan := c }

/-- Block read on the expansion bus, recorded in the ghost log. -/
def do_pak_read (b : PakBus σ) (a : Nat) : M σ (List Nat) := fun st =>
  match b.read st.chan a with
  | (.ok v, c) => .ok v { st with chan := c, log := st.log ++ [Ev.rd a] }
  | (.error e, c) => .err e { st with chan := c, log := st.log ++ [Ev.rd a] }

/-- Block write on the expansion bus, recorded in the ghost log (the
attempt is recorded even when the transport fails). -/
def do_pak_write (b : PakBus σ) (a : Nat) (d : List Nat) : M σ (List Nat) := fun st =>
  match b.write st.chan a d with
  | (.ok v, c) => .ok v { st with chan := c, log := st.log ++ [Ev.wr a d] }
  | (.error e, c) => .err e { st with chan := c, log := st.log ++ [Ev.wr a d] }

/-- Read of the `_tpak_high_bits` attribute; `AttributeError` when it has
never been assigned. -/
def getHigh : M σ Int := fun st =>
  match st.tpakHigh with
  | some v => .ok v st
  | none => .err .attrError st

/-- Assignment to the `_tpak_high_bits` attribute. -/
def setHigh (v : Int) : M σ Unit := fun st => .ok () { st with tpakHigh := some v }

/-- Python sequence indexing: `IndexError` past the end. -/
def idx (l : List Nat) (i : Nat) : M σ Nat :=
  match l.get? i with
  | some v => M.pure v
  | none => M.throw .indexError

/-- One 32-byte block written to stdout. -/
def putOut (d : List Nat) : M σ Unit := fun st =>
  .ok () { st with output := st.output ++ [d] }

/-- One 32-byte block read from stdin (empty once exhausted, as
`sys.stdin.buffer.read` returns an empty buffer at end of file). -/
def getIn : M σ (List Nat) := fun st =>
  .ok (st.input.headD []) { st with input := st.input.tail }

/-- Sequential loop over a list of addresses, as a Python `for` loop. -/
def mFor (l : List Nat) (f : Nat → M σ Unit) : M σ Unit :=
  match l with
  | [] => M.pure ()
  | x :: xs => M.bind (f x) fun _ => mFor xs f

/-! ## Controller methods (n64io.py lines 104-172) -/

/-- Whether something is plugged into the expansion port (lines 104-109):
bit 0 of the third status byte. -/
def has_pak (b : PakBus σ) : M σ Bool :=
  M.bind (do_status b) fun status =>
  M.bind (idx status 2) fun b2 =>
  M.pure (b2 &&& 0x01 ≠ 0)

/-- The Transfer Pak probe (lines 114-125). -/
def pak_is_transfer_pak (b : PakBus σ) : M σ Bool :=
  M.bind (do_pak_read b 0x8000) fun old_block =>
  M.bind (do_pak_write b 0x8000 (List.replicate 32 0x84)) fun _ =>
  M.bind (do_pak_read b 0x8000) fun v =>
  if v = List.replicate 32 0x84 then
    M.bind (do_pak_write b 0x8000 (List.replicate 32 0xfe)) fun _ =>
    M.bind (do_pak_write b 0x8000 old_block) fun _ =>
    M.pure true
  else
    M.bind (do_pak_write b 0x8000 old_block) fun _ =>
    M.pure false

/-- The Rumble Pak probe (lines 127-138). -/
def pak_is_rumble_pak (b : PakBus σ) : M σ Bool :=
  M.bind (do_pak_read b 0x8000) fun old_block =>
  M.bind (do_pak_write b 0x8000 (List.replicate 32 0xfe)) fun _ =>
  M.bind (do_pak_write b 0x8000 (List.replicate 32 0x80)) fun _ =>
  M.bind (do_pak_read b 0x8000) fun v =>
  if v = List.replicate 32 0x80 then
    M.bind (do_pak_write b 0x8000 old_block) fun _ =>
    M.pure true
  else
    M.bind (do_pak_write b 0x8000 old_block) fun _ =>
    M.pure false

/-- Transfer Pak power control (lines 140-144). -/
def tpak_set_power (b : PakBus σ) (power : Bool) : M σ Unit :=
  if power then
    M.bind (do_pak_write b 0x8000 (List.replicate 32 0x84)) fun _ => M.pure ()
  else
    M.bind (do_pak_write b 0x8000 (List.replicate 32 0xfe)) fun _ => M.pure ()

/-- Cartridge detection (lines 149-152): reset the cached window to the
`-1` sentinel, write 32 bytes of 1 to 0xB000 and expect 32 bytes of 0x89
back. -/
def tpak_detect_pak (b : PakBus σ) : M σ Bool :=
  M.bind (setHigh (-1)) fun _ =>
  M.bind (do_pak_write b 0xb000 (List.replicate 32 0x01)) fun _ =>
  M.bind (do_pak_read b 0xb000) fun v =>
  M.pure (v = List.replicate 32 0x89)

/-- Banked cartridge read (lines 154-162): select the 16 KiB window when
the cached selector differs, then read through the 0xC000 window. -/
def tpak_read (b : PakBus σ) (addr : Nat) : M σ (List Nat) :=
  M.bind getHigh fun h =>
  M.bind
    (if ((addr >>> 14 : Nat) : Int) ≠ h then
      M.bind (setHigh ((addr >>> 14 : Nat) : Int)) fun _ =>
      M.bind (do_pak_write b 0xa000 (List.replicate 32 (addr >>> 14))) fun _ =>
      M.pure ()
    else M.pure ()) fun _ =>
  do_pak_read b (addr ||| 0xc000)

/-- Banked cartridge write (lines 164-172). -/
def tpak_write (b : PakBus σ) (addr : Nat) (d : List Nat) : M σ (List Nat) :=
  M.bind getHigh fun h =>
  M.bind
    (if ((addr >>> 14 : Nat) : Int) ≠ h then
      M.bind (setHigh ((addr >>> 14 : Nat) : Int)) fun _ =>
      M.bind (do_pak_write b 0xa000 (List.replicate 32 (addr >>> 14))) fun _ =>
      M.pure ()
    else M.pure ()) fun _ =>
  do_pak_write b (addr ||| 0xc000) d

/-! ## Session bracketing and the SRAM commands (lines 212-296) -/

/-- The `tpak_setup` context manager (lines 212-231): check a Pak is
present and is a Transfer Pak, power it on, require a cartridge, run the
body, and power off in a `finally`. -/
def tpak_setup (b : PakBus σ) (body : M σ α) : M σ α :=
  M.bind (has_pak b) fun hp =>
  if ¬hp then M.throw .sysExit
  else
    M.bind (pak_is_transfer_pak b) fun tp =>
    if ¬tp then M.throw .sysExit
    else
      M.bind (tpak_set_power b true) fun _ =>
      tryFinally
        (M.bind (tpak_detect_pak b) fun d =>
          if ¬d then M.throw .sysExit else body)
        (tpak_set_power b false)

/-- The `tpak_ram_enabled` context manager (lines 234-240): the RAM
enable/disable bracket at cartridge address 0. -/
def tpak_ram_enabled (b : PakBus σ) (body : M σ α) : M σ α :=
  M.bind (tpak_write b 0x0000 (List.replicate 32 0x0a)) fun _ =>
  tryFinally body
    (M.bind (tpak_write b 0x0000 (List.replicate 32 0x00)) fun _ => M.pure ())

/-- RAM size byte decoding (lines 244-250): dictionary lookup with -1 as
the unrecognized marker. -/
def ram_size_code_to_bytes (code : Nat) : Int :=
  match code with
  | 0 => 0
  | 1 => 512
  | 2 => 8192
  | 3 => 32768
  | 4 => 131072
  | _ => -1

/-- Addresses of a Python `range(start, start + len, 32)` loop. -/
def blockAddrs (start len : Nat) : List Nat :=
  (List.range ((len + 31) / 32)).map fun i => start + 32 * i

/-- The cartridge SRAM dump command (lines 253-273). -/
def cmd_dump_cartridge_sram (b : PakBus σ) : M σ Unit :=
  tpak_setup b
    (M.bind (tpak_read b 0x0140) fun blk =>
     M.bind (idx blk 9) fun ram_code =>
     let ram_bytes := ram_size_code_to_bytes ram_code
     if ram_bytes = -1 then M.throw .sysExit
     else if ram_bytes = 0 then M.throw .sysExit
     else
       tpak_ram_enabled b
         (if ram_bytes < 0x2000 then
           mFor (blockAddrs 0xa000 ram_bytes.toNat) fun addr =>
             M.bind (tpak_read b addr) fun v => putOut v
         else
           mFor (List.range (ram_bytes.toNat / 0x2000)) fun i =>
             M.bind (tpak_write b 0x4000 (List.replicate 32 i)) fun _ =>
             mFor (blockAddrs 0xa000 0x2000) fun addr =>
               M.bind (tpak_read b addr) fun v => putOut v))

/-- The cartridge SRAM restore command (lines 276-296). -/
def cmd_restore_cartridge_sram (b : PakBus σ) : M σ Unit :=
  tpak_setup b
    (M.bind (tpak_read b 0x0140) fun blk =>
     M.bind (idx blk 9) fun ram_code =>
     let ram_bytes := ram_size_code_to_bytes ram_code
     if ram_bytes = -1 then M.throw .sysExit
     else if ram_bytes = 0 then M.throw .sysExit
     else
       tpak_ram_enabled b
         (if ram_bytes < 0x2000 then
           mFor (blockAddrs 0xa000 ram_bytes.toNat) fun addr =>
             M.bind getIn fun d =>
             M.bind (tpak_write b addr d) fun _ => M.pure ()
         else
           mFor (List.range (ram_bytes.toNat / 0x2000)) fun i =>
             M.bind (tpak_write b 0x4000 (List.replicate 32 i)) fun _ =>
             mFor (blockAddrs 0xa000 0x2000) fun addr =>
               M.bind getIn fun d =>
               M.bind (tpak_write b addr d) fun _ => M.pure ()))

/-! ## Trace observations and simulated buses -/

/-- The final controller state of a run, error or not. -/
def stateOf (r : MRes σ α) : CtrlSt σ :=
  match r with
  | .ok _ s => s
  | .err _ s => s

/-- The ghost log of a run's final state. -/
def logOf (r : MRes σ α) : List Ev := (stateOf r).log

/-- Payloads of the window-select writes (bus address 0xA000) in a log. -/
def windowWrites (l : List Ev) : List (List Nat) :=
  l.filterMap fun e =>
    match e with
    | .wr a d => if a = 0xa000 then some d else none
    | _ => none

/-- Payloads of the writes to the probe address 0x8000 in a log. -/
def probeWrites (l : List Ev) : List (List Nat) :=
  l.filterMap fun e =>
    match e with
    | .wr a d => if a = 0x8000 then some d else none
    | _ => none

/-- A simulated bus that stores every write verbatim and reads back the
stored block: a perfect 32-byte-block memory, never failing, with the
accessory-present status bit set. -/
def echoBus : PakBus (Nat → List Nat) where
  status := fun m => (.ok [0x00, 0x00, 0x01], m)
  read := fun m a => (.ok (m a), m)
  write := fun m a d => (.ok d, fun x => if x = a then d else m x)

/-- A simulated Transfer Pak bus: like `echoBus`, except that the
cartridge-detect register 0xB000 reads back 32 bytes of 0x89 after the
detect pattern is written, as a Transfer Pak with a cartridge answers. -/
def tpakBus : PakBus (Nat → List Nat) where
  status := fun m => (.ok [0x00, 0x00, 0x01], m)
  read := fun m a => (.ok (m a), m)
  write := fun m a d =>
    (.ok d, fun x => if x = a then (if a = 0xb000 then List.replicate 32 0x89 else d) else m x)

/-- An all-zero 32-byte-block memory whose cartridge header block (bus
address 0xC140, holding cartridge addresses 0x0140-0x015F) carries RAM
size code `c` at offset 9 (cartridge address 0x0149). -/
def headerMem (c : Nat) : Nat → List Nat := fun a =>
  if a = 0xc140 then List.replicate 9 0 ++ c :: List.replicate 22 0
  else List.replicate 32 0

/-- A freshly constructed controller: `__init__` (lines 56-58) opens the
channel only; `_tpak_high_bits` does not exist yet. -/
def freshSt (c : σ) (inp : List (List Nat)) : CtrlSt σ :=
  { chan := c, tpakHigh := none, input := inp, output := [], log := [] }

/-- An all-zero 32-byte-block memory. -/
def zeroMem : Nat → List Nat := fun _ => List.replicate 32 0

/-- The error of a run, if it failed. -/
def errOf (r : MRes σ α) : Option Err :=
  match r with
  | .ok _ _ => none
  | .err e _ => some e

/-! ## Theorems -/

/-- Every valid bus address is 32 times a value below 2048. -/
theorem valid_addr_elim (addr : Nat) (h1 : addr < 65536) (h2 : addr % 32 = 0) :
    ∃ k, k < 2048 ∧ addr = 32 * k := by
  refine ⟨addr / 32, ?_, ?_⟩ <;> omega

theorem addr_crc_eq_standard_bounded :
    ∀ i, i < 8 → ∀ k, k < 256 →
      addr_crc (32 * (256 * i + k)) = addr_crc_standard (32 * (256 * i + k))
      ∧ addr_crc (32 * (256 * i + k)) < 32 := by decide

/-- On every valid bus address the code CRC agrees with the standard
augmented CRC of the eleven data bits and fits in five bits. -/
theorem addr_crc_valid_facts (addr : Nat) (h1 : addr < 65536) (h2 : addr % 32 = 0) :
    addr_crc addr = addr_crc_standard addr ∧ addr_crc addr < 32 := by
  obtain ⟨k, hk, rfl⟩ := valid_addr_elim addr h1 h2
  have h8 : k / 256 < 8 := by omega
  have h := addr_crc_eq_standard_bounded (k / 256) h8 (k % 256) (by omega)
  have hk2 : 256 * (k / 256) + k % 256 = k := by omega
  rwa [hk2] at h

/-- Bits at or beyond position 16 of a sixteen-bit value are clear. -/
theorem testBit_ge16_false (x i : Nat) (hx : x < 65536) (hi : 16 ≤ i) :
    x.testBit i = false := by
  have pow16 : (65536 : Nat) ≤ 2 ^ i :=
    le_trans (by norm_num : (65536:Nat) ≤ 2 ^ 16) (Nat.pow_le_pow_right (by norm_num) hi)
  exact Nat.testBit_lt_two_pow (Nat.lt_of_lt_of_le hx pow16)

/-- Inserting a five-bit value into the reserved low bits of a valid
address and masking them back off recovers the address. -/
theorem or_low_mask_eq (a c : Nat) (h1 : a < 65536) (h2 : a % 32 = 0)
    (hc : c < 32) : (a ||| c) &&& 0xffe0 = a := by
  apply Nat.eq_of_testBit_eq
  intro i
  simp only [Nat.testBit_and, Nat.testBit_or]
  rcases Nat.lt_or_ge i 5 with hi5 | hi5
  · have hm : (0xffe0 : Nat).testBit i = false := by
      have h5 : ∀ j, j < 5 → (0xffe0 : Nat).testBit j = false := by decide
      exact h5 i hi5
    have hmod : a % 2 ^ 5 = 0 := h2
    have ha : a.testBit i = false := by
      have ht := Nat.testBit_mod_two_pow a 5 i
      rw [hmod, decide_eq_true hi5, Bool.true_and] at ht
      simpa using ht.symm
    simp [ha, hm]
  · have hcb : c.testBit i = false :=
      Nat.testBit_lt_two_pow
        (Nat.lt_of_lt_of_le hc (le_trans (by norm_num) (Nat.pow_le_pow_right (by norm_num) hi5)))
    rcases Nat.lt_or_ge i 16 with hi16 | hi16
    · have hm : (0xffe0 : Nat).testBit i = true := by
        have h16 : ∀ j, j < 16 → 5 ≤ j → (0xffe0 : Nat).testBit j = true := by decide
        exact h16 i hi16 hi5
      simp [hcb, hm]
    · simp [hcb, testBit_ge16_false a i h1 hi16,
        testBit_ge16_false 0xffe0 i (by norm_num) hi16]

/-- For sixteen-bit addresses, ORing 0xC000 on directly is the same as
first masking to the low fourteen bits. -/
theorem or_c000_eq_mask (a : Nat) (h1 : a < 65536) :
    a ||| 0xc000 = (a &&& 0x3fff) ||| 0xc000 := by
  apply Nat.eq_of_testBit_eq
  intro i
  simp only [Nat.testBit_or, Nat.testBit_and]
  rcases Nat.lt_or_ge i 16 with hi | hi
  · have hcompl : ∀ j, j < 16 → (0x3fff : Nat).testBit j = !(0xc000 : Nat).testBit j := by
      decide
    rw [hcompl i hi]
    cases ha : a.testBit i <;> cases hb : (0xc000 : Nat).testBit i <;> simp [ha, hb]
  · simp [testBit_ge16_false a i h1 hi, testBit_ge16_false 0xc000 i (by norm_num) hi,
      testBit_ge16_false 0x3fff i (by norm_num) hi]
theorem bind_ok_elim {x : M σ α} {f : α → M σ β} {s : CtrlSt σ} {r : β} {s2 : CtrlSt σ}
    (h : M.bind x f s = .ok r s2) : ∃ a s1, x s = .ok a s1 ∧ f a s1 = .ok r s2 := by
  unfold M.bind at h
  rcases hx : x s with ⟨a, s1⟩ | ⟨e, s1⟩ <;> rw [hx] at h
  · exact ⟨a, s1, rfl, h⟩
  · cases h

theorem do_pak_read_ok_elim {b : PakBus σ} {a : Nat} {st : CtrlSt σ} {v : List Nat}
    {st1 : CtrlSt σ} (h : do_pak_read b a st = .ok v st1) :
    ∃ c, b.read st.chan a = (.ok v, c)
      ∧ st1 = { st with chan := c, log := st.log ++ [Ev.rd a] } := by
  unfold do_pak_read at h
  rcases hr : b.read st.chan a with ⟨er, c⟩
  rw [hr] at h
  cases er
  case ok w =>
    injection h with h1 h2
    subst h1; subst h2
    exact ⟨c, rfl, rfl⟩
  case error e => cases h

theorem do_pak_write_ok_elim {b : PakBus σ} {a : Nat} {d : List Nat} {st : CtrlSt σ}
    {v : List Nat} {st1 : CtrlSt σ} (h : do_pak_write b a d st = .ok v st1) :
    ∃ c, b.write st.chan a d = (.ok v, c)
      ∧ st1 = { st with chan := c, log := st.log ++ [Ev.wr a d] } := by
  unfold do_pak_write at h
  rcases hw : b.write st.chan a d with ⟨ew, c⟩
  rw [hw] at h
  cases ew
  case ok w =>
    injection h with h1 h2
    subst h1; subst h2
    exact ⟨c, rfl, rfl⟩
  case error e => cases h

theorem do_status_ok_elim {b : PakBus σ} {st : CtrlSt σ} {v : List Nat}
    {st1 : CtrlSt σ} (h : do_status b st = .ok v st1) :
    ∃ c, b.status st.chan = (.ok v, c) ∧ st1 = { st with chan := c } := by
  unfold do_status at h
  rcases hs : b.status st.chan with ⟨es, c⟩
  rw [hs] at h
  cases es
  case ok w =>
    injection h with h1 h2
    subst h1; subst h2
    exact ⟨c, rfl, rfl⟩
  case error e => cases h

theorem pure_ok_elim {a : α} {s : CtrlSt σ} {r : α} {s1 : CtrlSt σ}
    (h : M.pure a s = .ok r s1) : r = a ∧ s1 = s := by
  unfold M.pure at h
  injection h with h1 h2
  exact ⟨h1.symm, h2.symm⟩

/-- The Transfer Pak probe's last write to the probe address is the block it saved. -/
theorem transfer_probe_restores (σ : Type) (b : PakBus σ) (c0 : σ) (hi : Option Int)
    (inp out : List (List Nat)) (old : List Nat) (c1 : σ) (r : Bool) (st1 : CtrlSt σ)
    (hread : b.read c0 0x8000 = (.ok old, c1))
    (hrun : pak_is_transfer_pak b ⟨c0, hi, inp, out, []⟩ = .ok r st1) :
    (probeWrites st1.log).getLast? = some old := by
  unfold pak_is_transfer_pak at hrun
  obtain ⟨old0, s1, hA, hrun⟩ := bind_ok_elim hrun
  obtain ⟨cA, hr1, rfl⟩ := do_pak_read_ok_elim hA
  rw [show (⟨c0, hi, inp, out, []⟩ : CtrlSt σ).chan = c0 from rfl, hread] at hr1
  injection hr1 with hr1a hr1b
  injection hr1a with hold
  subst hold
  obtain ⟨u1, s2, hB, hrun⟩ := bind_ok_elim hrun
  obtain ⟨cB, hw1, rfl⟩ := do_pak_write_ok_elim hB
  obtain ⟨v2, s3, hC, hrun⟩ := bind_ok_elim hrun
  obtain ⟨cC, hr2, rfl⟩ := do_pak_read_ok_elim hC
  by_cases hv : v2 = List.replicate 32 0x84
  · rw [if_pos hv] at hrun
    obtain ⟨u3, s4, hD, hrun⟩ := bind_ok_elim hrun
    obtain ⟨cD, hw3, rfl⟩ := do_pak_write_ok_elim hD
    obtain ⟨u4, s5, hE, hrun⟩ := bind_ok_elim hrun
    obtain ⟨cE, hw4, rfl⟩ := do_pak_write_ok_elim hE
    obtain ⟨-, rfl⟩ := pure_ok_elim hrun
    simp [probeWrites]
  · rw [if_neg hv] at hrun
    obtain ⟨u4, s5, hE, hrun⟩ := bind_ok_elim hrun
    obtain ⟨cE, hw4, rfl⟩ := do_pak_write_ok_elim hE
    obtain ⟨-, rfl⟩ := pure_ok_elim hrun
    simp [probeWrites]

theorem natCast_ne_negOne (n : Nat) : ((n : Nat) : Int) ≠ -1 := by omega

theorem tpak_read_ok_elim {b : PakBus σ} {a : Nat} {st : CtrlSt σ} {v : Int}
    {r : List Nat} {st1 : CtrlSt σ}
    (hv : st.tpakHigh = some v) (h : tpak_read b a st = .ok r st1) :
    (((a >>> 14 : Nat) : Int) = v
      ∧ ∃ c, b.read st.chan (a ||| 0xc000) = (.ok r, c)
        ∧ st1 = { st with chan := c, log := st.log ++ [Ev.rd (a ||| 0xc000)] })
    ∨ (((a >>> 14 : Nat) : Int) ≠ v
      ∧ ∃ w cw c, b.write st.chan 0xa000 (List.replicate 32 (a >>> 14)) = (.ok w, cw)
        ∧ b.read cw (a ||| 0xc000) = (.ok r, c)
        ∧ st1 = { st with
                  tpakHigh := some ((a >>> 14 : Nat) : Int), chan := c,
                  log := st.log ++ [Ev.wr 0xa000 (List.replicate 32 (a >>> 14)),
                    Ev.rd (a ||| 0xc000)] }) := by
  unfold tpak_read at h
  obtain ⟨h0, s1, hG, hRest⟩ := bind_ok_elim h
  unfold getHigh at hG
  rw [hv] at hG
  injection hG with hG1 hG2
  subst hG1; subst hG2
  obtain ⟨u, s2, hIf, hRd⟩ := bind_ok_elim hRest
  by_cases hc : ((a >>> 14 : Nat) : Int) = v
  · left
    rw [if_neg (not_not_intro hc)] at hIf
    obtain ⟨-, hpure⟩ := pure_ok_elim hIf
    subst hpure
    obtain ⟨c, hr, hst⟩ := do_pak_read_ok_elim hRd
    subst hst
    exact ⟨hc, c, hr, rfl⟩
  · right
    rw [if_pos hc] at hIf
    obtain ⟨u1, s3, hS, hIf2⟩ := bind_ok_elim hIf
    unfold setHigh at hS
    injection hS with hS1 hS2
    subst hS2
    obtain ⟨w, s4, hW, hIf3⟩ := bind_ok_elim hIf2
    obtain ⟨cw, hw, hst4⟩ := do_pak_write_ok_elim hW
    subst hst4
    obtain ⟨-, hpure⟩ := pure_ok_elim hIf3
    subst hpure
    obtain ⟨c, hr, hst1⟩ := do_pak_read_ok_elim hRd
    subst hst1
    exact ⟨hc, w, cw, c, hw, hr, by simp⟩

theorem tpak_write_ok_elim {b : PakBus σ} {a : Nat} {d : List Nat} {st : CtrlSt σ}
    {v : Int} {r : List Nat} {st1 : CtrlSt σ}
    (hv : st.tpakHigh = some v) (h : tpak_write b a d st = .ok r st1) :
    (((a >>> 14 : Nat) : Int) = v
      ∧ ∃ c, b.write st.chan (a ||| 0xc000) d = (.ok r, c)
        ∧ st1 = { st with chan := c, log := st.log ++ [Ev.wr (a ||| 0xc000) d] })
    ∨ (((a >>> 14 : Nat) : Int) ≠ v
      ∧ ∃ w cw c, b.write st.chan 0xa000 (List.replicate 32 (a >>> 14)) = (.ok w, cw)
        ∧ b.write cw (a ||| 0xc000) d = (.ok r, c)
        ∧ st1 = { st with
                  tpakHigh := some ((a >>> 14 : Nat) : Int), chan := c,
                  log := st.log ++ [Ev.wr 0xa000 (List.replicate 32 (a >>> 14)),
                    Ev.wr (a ||| 0xc000) d] }) := by
  unfold tpak_write at h
  obtain ⟨h0, s1, hG, hRest⟩ := bind_ok_elim h
  unfold getHigh at hG
  rw [hv] at hG
  injection hG with hG1 hG2
  subst hG1; subst hG2
  obtain ⟨u, s2, hIf, hWr⟩ := bind_ok_elim hRest
  by_cases hc : ((a >>> 14 : Nat) : Int) = v
  · left
    rw [if_neg (not_not_intro hc)] at hIf
    obtain ⟨-, hpure⟩ := pure_ok_elim hIf
    subst hpure
    obtain ⟨c, hw, hst⟩ := do_pak_write_ok_elim hWr
    subst hst
    exact ⟨hc, c, hw, rfl⟩
  · right
    rw [if_pos hc] at hIf
    obtain ⟨u1, s3, hS, hIf2⟩ := bind_ok_elim hIf
    unfold setHigh at hS
    injection hS with hS1 hS2
    subst hS2
    obtain ⟨w, s4, hW, hIf3⟩ := bind_ok_elim hIf2
    obtain ⟨cw, hw, hst4⟩ := do_pak_write_ok_elim hW
    subst hst4
    obtain ⟨-, hpure⟩ := pure_ok_elim hIf3
    subst hpure
    obtain ⟨c, hw2, hst1⟩ := do_pak_write_ok_elim hWr
    subst hst1
    exact ⟨hc, w, cw, c, hw, hw2, by simp⟩

theorem tpak_detect_ok_elim {b : PakBus σ} {st : CtrlSt σ} {r : Bool} {st1 : CtrlSt σ}
    (h : tpak_detect_pak b st = .ok r st1) :
    ∃ w cw v c, b.write st.chan 0xb000 (List.replicate 32 0x01) = (.ok w, cw)
      ∧ b.read cw 0xb000 = (.ok v, c)
      ∧ st1 = { st with
                tpakHigh := some (-1), chan := c,
                log := st.log ++ [Ev.wr 0xb000 (List.replicate 32 0x01), Ev.rd 0xb000] } := by
  unfold tpak_detect_pak at h
  obtain ⟨u0, s1, hS, h⟩ := bind_ok_elim h
  unfold setHigh at hS
  injection hS with hS1 hS2
  subst hS2
  obtain ⟨w, s2, hW, h⟩ := bind_ok_elim h
  obtain ⟨cw, hw, rfl⟩ := do_pak_write_ok_elim hW
  obtain ⟨v, s3, hR, h⟩ := bind_ok_elim h
  obtain ⟨c, hr, rfl⟩ := do_pak_read_ok_elim hR
  obtain ⟨-, rfl⟩ := pure_ok_elim h
  exact ⟨w, cw, v, c, hw, hr, by simp⟩

theorem set_power_high_bits (b : PakBus σ) (p : Bool) (st : CtrlSt σ) :
    (stateOf (tpak_set_power b p st)).tpakHigh = st.tpakHigh := by
  unfold tpak_set_power
  cases p <;> {
    simp only [if_true, if_false, M.bind, do_pak_write, M.pure, Bool.false_eq_true]
    rcases hw : b.write st.chan 0x8000 _ with ⟨ew, c⟩
    cases ew <;> simp only [stateOf] }

theorem detect_sets_sentinel (b : PakBus σ) (st : CtrlSt σ) :
    (stateOf (tpak_detect_pak b st)).tpakHigh = some (-1) := by
  unfold tpak_detect_pak M.bind setHigh
  rcases hw : b.write st.chan 0xb000 (List.replicate 32 0x01) with ⟨ew, cw⟩
  cases ew <;> simp only [do_pak_write, hw, stateOf] <;> try rfl
  rcases hr : b.read cw 0xb000 with ⟨er, cr⟩
  cases er <;> simp only [do_pak_read, hr, stateOf, M.pure] <;> rfl

theorem tryFinally_poweroff_log (b : PakBus σ) (x : M σ α) (st : CtrlSt σ) :
    logOf (tryFinally x (tpak_set_power b false) st)
      = logOf (x st) ++ [Ev.wr 0x8000 (List.replicate 32 0xfe)] := by
  unfold tryFinally
  rcases hx : x st with ⟨a, s1⟩ | ⟨e, s1⟩ <;> {
    simp only [tpak_set_power, if_false, M.bind, do_pak_write, M.pure, Bool.false_eq_true]
    rcases hw : b.write s1.chan 0x8000 (List.replicate 32 0xfe) with ⟨ew, c⟩
    cases ew <;> simp only [logOf, stateOf] }


theorem or_c000_ne_a000 (a : Nat) : a ||| 0xc000 ≠ 0xa000 := by
  intro hq
  have h14 := congrArg (fun x => Nat.testBit x 14) hq
  simp only [Nat.testBit_or] at h14
  rw [show Nat.testBit 0xc000 14 = true from by decide,
      show Nat.testBit 0xa000 14 = false from by decide] at h14
  simp at h14

theorem rumble_probe_restores (σ : Type) (b : PakBus σ) (c0 : σ) (hi : Option Int)
    (inp out : List (List Nat)) (old : List Nat) (c1 : σ) (r : Bool) (st1 : CtrlSt σ)
    (hread : b.read c0 0x8000 = (.ok old, c1))
    (hrun : pak_is_rumble_pak b ⟨c0, hi, inp, out, []⟩ = .ok r st1) :
    (probeWrites st1.log).getLast? = some old := by
  unfold pak_is_rumble_pak at hrun
  obtain ⟨old0, s1, hA, hrun⟩ := bind_ok_elim hrun
  obtain ⟨cA, hr1, rfl⟩ := do_pak_read_ok_elim hA
  rw [show (⟨c0, hi, inp, out, []⟩ : CtrlSt σ).chan = c0 from rfl, hread] at hr1
  injection hr1 with hr1a hr1b
  injection hr1a with hold
  subst hold
  obtain ⟨u1, s2, hB, hrun⟩ := bind_ok_elim hrun
  obtain ⟨cB, hw1, rfl⟩ := do_pak_write_ok_elim hB
  obtain ⟨u2, s3, hC, hrun⟩ := bind_ok_elim hrun
  obtain ⟨cC, hw2, rfl⟩ := do_pak_write_ok_elim hC
  obtain ⟨v2, s4, hD, hrun⟩ := bind_ok_elim hrun
  obtain ⟨cD, hr2, rfl⟩ := do_pak_read_ok_elim hD
  by_cases hv : v2 = List.replicate 32 0x80
  · rw [if_pos hv] at hrun
    obtain ⟨u4, s5, hE, hrun⟩ := bind_ok_elim hrun
    obtain ⟨cE, hw4, rfl⟩ := do_pak_write_ok_elim hE
    obtain ⟨-, rfl⟩ := pure_ok_elim hrun
    simp [probeWrites]
  · rw [if_neg hv] at hrun
    obtain ⟨u4, s5, hE, hrun⟩ := bind_ok_elim hrun
    obtain ⟨cE, hw4, rfl⟩ := do_pak_write_ok_elim hE
    obtain ⟨-, rfl⟩ := pure_ok_elim hrun
    simp [probeWrites]

theorem echo_transfer_result (m : Nat → List Nat) (hi : Option Int)
    (inp out : List (List Nat)) :
    ∃ st1, pak_is_transfer_pak echoBus ⟨m, hi, inp, out, []⟩ = .ok true st1
      ∧ st1.chan 0x8000 = m 0x8000 := by
  refine ⟨_, rfl, ?_⟩
  simp

/-- C2: For every starting 32-byte content of bus address 0x8000, every
returning path of the accessory probes `pak_is_transfer_pak` and
`pak_is_rumble_pak` writes that content back to 0x8000 as its last
0x8000 write; and against a bus that echoes writes verbatim the
discriminator reports a Transfer Pak and leaves 0x8000 holding its
pre-probe contents. -/
theorem c2_probe_restores :
    (∀ (σ : Type) (b : PakBus σ) (c0 : σ) (hi : Option Int) (inp out : List (List Nat))
       (old : List Nat) (c1 : σ) (r : Bool) (st1 : CtrlSt σ),
       b.read c0 0x8000 = (.ok old, c1) →
       pak_is_transfer_pak b ⟨c0, hi, inp, out, []⟩ = .ok r st1 →
       (probeWrites st1.log).getLast? = some old)
    ∧ (∀ (σ : Type) (b : PakBus σ) (c0 : σ) (hi : Option Int) (inp out : List (List Nat))
       (old : List Nat) (c1 : σ) (r : Bool) (st1 : CtrlSt σ),
       b.read c0 0x8000 = (.ok old, c1) →
       pak_is_rumble_pak b ⟨c0, hi, inp, out, []⟩ = .ok r st1 →
       (probeWrites st1.log).getLast? = some old)
    ∧ (∀ (m : Nat → List Nat) (hi : Option Int) (inp out : List (List Nat)),
       ∃ st1, pak_is_transfer_pak echoBus ⟨m, hi, inp, out, []⟩ = .ok true st1
         ∧ st1.chan 0x8000 = m 0x8000) :=
  ⟨transfer_probe_restores, rumble_probe_restores, echo_transfer_result⟩

/-- Witness for C2 at the echo bus on the all-zero memory. -/
theorem c2_probe_restores_witness :
    (probeWrites (logOf (pak_is_transfer_pak echoBus (freshSt zeroMem [])))).getLast?
      = some (List.replicate 32 0) := by
  exact c2_probe_restores.1 _ echoBus zeroMem none [] [] (List.replicate 32 0) zeroMem true _ rfl rfl

/-- C3: A window-select write (the selector replicated 32 times, to bus
address 0xA000) is issued by `tpak_read` / `tpak_write` exactly when the
call's high selector differs from the cached value, and the cache is then
updated to that selector; two sequential `tpak_read` calls after a detect
issue exactly one window-select write when their selectors agree and one
per change, in address order, otherwise. -/
theorem c3_window_caching :
    (∀ (σ : Type) (b : PakBus σ) (c0 : σ) (v : Int) (inp out : List (List Nat))
       (a : Nat) (r : List Nat) (st1 : CtrlSt σ),
       tpak_read b a ⟨c0, some v, inp, out, []⟩ = .ok r st1 →
       windowWrites st1.log
           = (if ((a >>> 14 : Nat) : Int) = v then [] else [List.replicate 32 (a >>> 14)])
         ∧ st1.tpakHigh = some ((a >>> 14 : Nat) : Int))
    ∧ (∀ (σ : Type) (b : PakBus σ) (c0 : σ) (v : Int) (inp out : List (List Nat))
       (a : Nat) (d : List Nat) (r : List Nat) (st1 : CtrlSt σ),
       tpak_write b a d ⟨c0, some v, inp, out, []⟩ = .ok r st1 →
       windowWrites st1.log
           = (if ((a >>> 14 : Nat) : Int) = v then [] else [List.replicate 32 (a >>> 14)])
         ∧ st1.tpakHigh = some ((a >>> 14 : Nat) : Int))
    ∧ (∀ (σ : Type) (b : PakBus σ) (c0 : σ) (hi : Option Int) (inp out : List (List Nat))
       (a1 a2 : Nat) (r : List Nat) (st1 : CtrlSt σ),
       M.bind (tpak_detect_pak b) (fun _ => M.bind (tpak_read b a1) fun _ => tpak_read b a2)
           ⟨c0, hi, inp, out, []⟩ = .ok r st1 →
       windowWrites st1.log
         = if a1 >>> 14 = a2 >>> 14
           then [List.replicate 32 (a1 >>> 14)]
           else [List.replicate 32 (a1 >>> 14), List.replicate 32 (a2 >>> 14)]) := by
  refine ⟨?_, ?_, ?_⟩
  · intro σ b c0 v inp out a r st1 h
    rcases tpak_read_ok_elim rfl h with ⟨hc, c, hr, rfl⟩ | ⟨hc, w, cw, c, hw, hr, rfl⟩
    · rw [if_pos hc, hc]
      exact ⟨by simp [windowWrites], rfl⟩
    · rw [if_neg hc]
      exact ⟨by simp [windowWrites], rfl⟩
  · intro σ b c0 v inp out a d r st1 h
    rcases tpak_write_ok_elim rfl h with ⟨hc, c, hw, rfl⟩ | ⟨hc, w, cw, c, hw, hw2, rfl⟩
    · rw [if_pos hc, hc]
      exact ⟨by simp [windowWrites, or_c000_ne_a000], rfl⟩
    · rw [if_neg hc]
      exact ⟨by simp [windowWrites, or_c000_ne_a000], rfl⟩
  · intro σ b c0 hi inp out a1 a2 r st1 h
    obtain ⟨r0, s1, hD, hRest⟩ := bind_ok_elim h
    obtain ⟨w, cw, v0, c, hw, hr, hst⟩ := tpak_detect_ok_elim hD
    subst hst
    obtain ⟨r1, s2, h1, h2⟩ := bind_ok_elim hRest
    rcases tpak_read_ok_elim rfl h1 with ⟨hc1, -⟩ | ⟨hc1, w1, cw1, c1, hw1, hr1, hst2⟩
    · exact absurd hc1 (natCast_ne_negOne _)
    · subst hst2
      rcases tpak_read_ok_elim rfl h2 with ⟨hc2, c2, hr2, rfl⟩ | ⟨hc2, w2, cw2, c2, hw2, hr2, rfl⟩
      · have hsel : a1 >>> 14 = a2 >>> 14 := (Int.natCast_inj.mp hc2).symm
        rw [if_pos hsel]
        simp [windowWrites]
      · have hsel : ¬ a1 >>> 14 = a2 >>> 14 := fun hq => hc2 (by rw [hq])
        rw [if_neg hsel]
        simp [windowWrites]

/-- Witness for C3: two same-selector reads on the echo bus issue exactly
one window-select write. -/
theorem c3_window_caching_witness :
    windowWrites (logOf
      (M.bind (tpak_detect_pak echoBus)
        (fun _ => M.bind (tpak_read echoBus 0x0000) fun _ => tpak_read echoBus 0x0020)
        (freshSt zeroMem []))) = [List.replicate 32 0] := by
  have h := c3_window_caching.2.2 _ echoBus zeroMem none [] [] 0x0000 0x0020 _ _ rfl
  simpa using h

/-- C4: Whenever a `tpak_setup` session passes its Pak checks and the
power-on write succeeds, the run's ghost log ends with the low-power
write of 32 bytes of 0xFE to 0x8000, whatever the body and the bus do:
the no-cartridge exit, an error thrown inside the body, and a transport
error propagating out of the body all still execute `tpak_set_power
False`. -/
theorem c4_poweroff_on_exit (σ α : Type) (b : PakBus σ) (body : M σ α)
    (st st1 st2 st3 : CtrlSt σ)
    (h1 : has_pak b st = .ok true st1)
    (h2 : pak_is_transfer_pak b st1 = .ok true st2)
    (h3 : tpak_set_power b true st2 = .ok () st3) :
    (logOf (tpak_setup b body st)).getLast?
      = some (Ev.wr 0x8000 (List.replicate 32 0xfe)) := by
  unfold tpak_setup
  simp only [M.bind, h1]
  rw [if_neg (not_not_intro trivial)]
  simp only [M.bind, h2]
  rw [if_neg (not_not_intro trivial)]
  simp only [M.bind, h3]
  rw [tryFinally_poweroff_log, List.getLast?_concat]

/-- Witness for C4: a body that throws a transport error on the echo bus
still ends the log with the power-off write. -/
theorem c4_poweroff_on_exit_witness :
    (logOf (tpak_setup echoBus (M.throw .transport : M (Nat → List Nat) Unit)
      (freshSt zeroMem []))).getLast? = some (Ev.wr 0x8000 (List.replicate 32 0xfe)) := by
  exact c4_poweroff_on_exit _ _ echoBus (M.throw .transport) (freshSt zeroMem []) _ _ _ rfl rfl rfl

/-- C5 (amended): the cached window is left unchanged by
`tpak_set_power` and is invalidated (reset to the -1 sentinel) by
`tpak_detect_pak`; after a detect, the next `tpak_read` or `tpak_write`
always issues a fresh window-select write. -/
theorem c5_cache_invalidation_amended :
    (∀ (σ : Type) (b : PakBus σ) (p : Bool) (st : CtrlSt σ),
      (stateOf (tpak_set_power b p st)).tpakHigh = st.tpakHigh)
    ∧ (∀ (σ : Type) (b : PakBus σ) (st : CtrlSt σ),
      (stateOf (tpak_detect_pak b st)).tpakHigh = some (-1))
    ∧ (∀ (σ : Type) (b : PakBus σ) (c0 : σ) (inp out : List (List Nat)) (a : Nat)
        (r : List Nat) (st1 : CtrlSt σ),
        tpak_read b a ⟨c0, some (-1), inp, out, []⟩ = .ok r st1 →
        windowWrites st1.log = [List.replicate 32 (a >>> 14)])
    ∧ (∀ (σ : Type) (b : PakBus σ) (c0 : σ) (inp out : List (List Nat)) (a : Nat)
        (d : List Nat) (r : List Nat) (st1 : CtrlSt σ),
        tpak_write b a d ⟨c0, some (-1), inp, out, []⟩ = .ok r st1 →
        windowWrites st1.log = [List.replicate 32 (a >>> 14)]) := by
  refine ⟨fun σ b p st => set_power_high_bits b p st,
    fun σ b st => detect_sets_sentinel b st, ?_, ?_⟩
  · intro σ b c0 inp out a r st1 h
    rcases tpak_read_ok_elim rfl h with ⟨hc, -⟩ | ⟨-, w, cw, c, hw, hr, rfl⟩
    · exact absurd hc (natCast_ne_negOne _)
    · simp [windowWrites]
  · intro σ b c0 inp out a d r st1 h
    rcases tpak_write_ok_elim rfl h with ⟨hc, -⟩ | ⟨-, w, cw, c, hw, hw2, rfl⟩
    · exact absurd hc (natCast_ne_negOne _)
    · simp [windowWrites, or_c000_ne_a000]

/-- Witness for C5 (amended) at the echo bus, on both the read and the
write path. -/
theorem c5_cache_invalidation_witness :
    windowWrites (logOf (tpak_read echoBus 0x0000
      ⟨zeroMem, some (-1), [], [], []⟩)) = [List.replicate 32 0]
    ∧ windowWrites (logOf (tpak_write echoBus 0x0000 (List.replicate 32 0x11)
      ⟨zeroMem, some (-1), [], [], []⟩)) = [List.replicate 32 0] := by
  constructor
  · exact c5_cache_invalidation_amended.2.2.1 _ echoBus zeroMem [] [] 0x0000 _ _ rfl
  · exact c5_cache_invalidation_amended.2.2.2 _ echoBus zeroMem [] [] 0x0000
      (List.replicate 32 0x11) _ _ rfl

/-- C5 counterexample: after detect, read, power off, power on, a second
read of the same address issues no window-select write (the whole
sequence performs exactly one), and after the power cycle the cache still
holds selector 0 rather than the unknown sentinel - so power cycling does
not invalidate the cache. -/
theorem c5_cache_invalidation_counterexample :
    windowWrites (logOf
      (M.bind (tpak_detect_pak echoBus) (fun _ =>
       M.bind (tpak_read echoBus 0x0000) (fun _ =>
       M.bind (tpak_set_power echoBus false) (fun _ =>
       M.bind (tpak_set_power echoBus true) (fun _ =>
       tpak_read echoBus 0x0000))))
       (freshSt zeroMem []))) = [List.replicate 32 0]
    ∧ (stateOf
      (M.bind (tpak_detect_pak echoBus) (fun _ =>
       M.bind (tpak_read echoBus 0x0000) (fun _ =>
       M.bind (tpak_set_power echoBus false) (fun _ =>
       tpak_set_power echoBus true)))
       (freshSt zeroMem []))).tpakHigh = some 0 := by
  constructor <;> rfl

/-- C10: On a freshly constructed controller, `tpak_read` and
`tpak_write` fail with `AttributeError` before any `tpak_detect_pak`,
because the cached-window attribute is first created by
`tpak_detect_pak` (which leaves it set, at -1, whatever the bus does). -/
theorem c10_read_before_detect (σ : Type) (b : PakBus σ) (c : σ)
    (inp : List (List Nat)) (a : Nat) (d : List Nat) :
    tpak_read b a (freshSt c inp) = .err .attrError (freshSt c inp)
    ∧ tpak_write b a d (freshSt c inp) = .err .attrError (freshSt c inp)
    ∧ (stateOf (tpak_detect_pak b (freshSt c inp))).tpakHigh = some (-1) :=
  ⟨rfl, rfl, detect_sets_sentinel b _⟩

/-- C7: For every 16-bit address, the bus address the code uses,
`a ||| 0xC000`, equals `(a &&& 0x3FFF) ||| 0xC000`; accordingly, when the
high selector already matches the cached window, `tpak_read` performs
exactly one block read and `tpak_write` exactly one block write at
`(a &&& 0x3FFF) ||| 0xC000`. -/
theorem c7_window_address :
    (∀ a : Nat, a < 65536 → a ||| 0xc000 = (a &&& 0x3fff) ||| 0xc000)
    ∧ (∀ (σ : Type) (b : PakBus σ) (c0 : σ) (inp out : List (List Nat)) (a : Nat)
        (r : List Nat) (st1 : CtrlSt σ), a < 65536 →
        tpak_read b a ⟨c0, some ((a >>> 14 : Nat) : Int), inp, out, []⟩ = .ok r st1 →
        st1.log = [Ev.rd ((a &&& 0x3fff) ||| 0xc000)])
    ∧ (∀ (σ : Type) (b : PakBus σ) (c0 : σ) (inp out : List (List Nat)) (a : Nat)
        (d : List Nat) (r : List Nat) (st1 : CtrlSt σ), a < 65536 →
        tpak_write b a d ⟨c0, some ((a >>> 14 : Nat) : Int), inp, out, []⟩ = .ok r st1 →
        st1.log = [Ev.wr ((a &&& 0x3fff) ||| 0xc000) d]) := by
  refine ⟨or_c000_eq_mask, ?_, ?_⟩
  · intro σ b c0 inp out a r st1 ha h
    rcases tpak_read_ok_elim rfl h with ⟨-, c, hr, rfl⟩ | ⟨hc, -⟩
    · rw [← or_c000_eq_mask a ha]
      simp
    · exact absurd rfl hc
  · intro σ b c0 inp out a d r st1 ha h
    rcases tpak_write_ok_elim rfl h with ⟨-, c, hw, rfl⟩ | ⟨hc, -⟩
    · rw [← or_c000_eq_mask a ha]
      simp
    · exact absurd rfl hc

/-- Witness for C7 at address 0x8000 with window selector 2 cached. -/
theorem c7_window_address_witness :
    logOf (tpak_read echoBus 0x8000 ⟨zeroMem, some 2, [], [], []⟩) = [Ev.rd 0xc000] := by
  have h := c7_window_address.2.1 _ echoBus zeroMem [] [] 0x8000 _ _ (by norm_num) rfl
  exact h.trans (by decide)

/-- C8: For every 32-byte-aligned address, `Wire.do_pak_read` sends the
frame consisting of command length 3, response length 33, opcode 0x02 and
the CRC-tagged address `addr ||| addr_crc addr` as two big-endian bytes,
requests exactly 33 response bytes, and keeps exactly the first 32,
discarding the 33rd. -/
theorem c8_block_read_frame (σ : Type) (ch : Chan σ) (s : σ) (addr : Nat)
    (halign : addr % 32 = 0) :
    Wire.do_pak_read ch s addr
      = ((ch.read (ch.write s [3, 33, 2, (addr ||| addr_crc addr) >>> 8,
          (addr ||| addr_crc addr) &&& 0xff]) 33).1.take 32,
         (ch.read (ch.write s [3, 33, 2, (addr ||| addr_crc addr) >>> 8,
          (addr ||| addr_crc addr) &&& 0xff]) 33).2)
    ∧ ∀ r : List Nat, r.length = 33 → (r.take 32).length = 32 ∧ r.take 32 = r.dropLast := by
  constructor
  · rfl
  · intro r hr
    constructor
    · rw [List.length_take, hr]
      decide
    · rw [List.dropLast_eq_take, hr]

/-- Witness for C8 on a concrete recording channel at address 0x8000. -/
theorem c8_block_read_frame_witness :
    Wire.do_pak_read (Chan.mk (fun s l => s ++ [l]) (fun s n => (List.replicate n 7, s))
        : Chan (List (List Nat))) [] 0x8000
      = (List.replicate 32 7, [[3, 33, 2, 0x80, 0x01]])
    ∧ (List.replicate 33 7).take 32 = (List.replicate 33 7).dropLast := by
  have h := c8_block_read_frame (List (List Nat))
    (Chan.mk (fun s l => s ++ [l]) (fun s n => (List.replicate n 7, s))) [] 0x8000 (by norm_num)
  constructor
  · rw [h.1]
    decide
  · exact (h.2 (List.replicate 33 7) (by decide)).2

theorem ram_code_ge5 (c : Nat) (h5 : 5 ≤ c) : ram_size_code_to_bytes c = -1 := by
  rcases c with _ | _ | _ | _ | _ | k
  · omega
  · omega
  · omega
  · omega
  · omega
  · rfl

/-- C6: `ram_size_code_to_bytes` maps 0, 1, 2, 3, 4 to 0, 512, 8192,
32768, 131072 bytes and every other byte value to the unrecognized
marker -1; and with an unrecognized or zero RAM size code in the
cartridge header, the SRAM dump and restore commands abort with an error
before any RAM-enable write (32 bytes of 0x0A to bus address 0xC000) is
issued. -/
theorem c6_ram_size_abort :
    (ram_size_code_to_bytes 0 = 0 ∧ ram_size_code_to_bytes 1 = 512
      ∧ ram_size_code_to_bytes 2 = 8192 ∧ ram_size_code_to_bytes 3 = 32768
      ∧ ram_size_code_to_bytes 4 = 131072
      ∧ ∀ c : Nat, 5 ≤ c → ram_size_code_to_bytes c = -1)
    ∧ (∀ (c : Nat) (inp : List (List Nat)),
        ram_size_code_to_bytes c = -1 ∨ ram_size_code_to_bytes c = 0 →
        errOf (cmd_dump_cartridge_sram tpakBus (freshSt (headerMem c) inp)) = some .sysExit
        ∧ ∀ d, Ev.wr 0xc000 d
            ∉ logOf (cmd_dump_cartridge_sram tpakBus (freshSt (headerMem c) inp)))
    ∧ (∀ (c : Nat) (inp : List (List Nat)),
        ram_size_code_to_bytes c = -1 ∨ ram_size_code_to_bytes c = 0 →
        errOf (cmd_restore_cartridge_sram tpakBus (freshSt (headerMem c) inp)) = some .sysExit
        ∧ ∀ d, Ev.wr 0xc000 d
            ∉ logOf (cmd_restore_cartridge_sram tpakBus (freshSt (headerMem c) inp))) := by
  have hcase : ∀ c : Nat,
      ram_size_code_to_bytes c = -1 ∨ ram_size_code_to_bytes c = 0 → c = 0 ∨ 5 ≤ c := by
    intro c hc
    rcases c with _ | _ | _ | _ | _ | k
    · exact Or.inl rfl
    all_goals simp [ram_size_code_to_bytes] at hc
    all_goals omega
  refine ⟨⟨rfl, rfl, rfl, rfl, rfl, ram_code_ge5⟩, ?_, ?_⟩
  · intro c inp hc
    rcases hcase c hc with rfl | h5
    · refine ⟨rfl, ?_⟩
      have hl : logOf (cmd_dump_cartridge_sram tpakBus (freshSt (headerMem 0) inp))
          = [Ev.rd 0x8000, Ev.wr 0x8000 (List.replicate 32 0x84), Ev.rd 0x8000,
             Ev.wr 0x8000 (List.replicate 32 0xfe), Ev.wr 0x8000 (List.replicate 32 0x00),
             Ev.wr 0x8000 (List.replicate 32 0x84), Ev.wr 0xb000 (List.replicate 32 0x01),
             Ev.rd 0xb000, Ev.wr 0xa000 (List.replicate 32 0x00), Ev.rd 0xc140,
             Ev.wr 0x8000 (List.replicate 32 0xfe)] := rfl
      intro d
      rw [hl]
      simp
    · obtain ⟨k, rfl⟩ : ∃ k, c = k + 5 := ⟨c - 5, by omega⟩
      refine ⟨rfl, ?_⟩
      have hl : logOf (cmd_dump_cartridge_sram tpakBus (freshSt (headerMem (k + 5)) inp))
          = [Ev.rd 0x8000, Ev.wr 0x8000 (List.replicate 32 0x84), Ev.rd 0x8000,
             Ev.wr 0x8000 (List.replicate 32 0xfe), Ev.wr 0x8000 (List.replicate 32 0x00),
             Ev.wr 0x8000 (List.replicate 32 0x84), Ev.wr 0xb000 (List.replicate 32 0x01),
             Ev.rd 0xb000, Ev.wr 0xa000 (List.replicate 32 0x00), Ev.rd 0xc140,
             Ev.wr 0x8000 (List.replicate 32 0xfe)] := rfl
      intro d
      rw [hl]
      simp
  · intro c inp hc
    rcases hcase c hc with rfl | h5
    · refine ⟨rfl, ?_⟩
      have hl : logOf (cmd_restore_cartridge_sram tpakBus (freshSt (headerMem 0) inp))
          = [Ev.rd 0x8000, Ev.wr 0x8000 (List.replicate 32 0x84), Ev.rd 0x8000,
             Ev.wr 0x8000 (List.replicate 32 0xfe), Ev.wr 0x8000 (List.replicate 32 0x00),
             Ev.wr 0x8000 (List.replicate 32 0x84), Ev.wr 0xb000 (List.replicate 32 0x01),
             Ev.rd 0xb000, Ev.wr 0xa000 (List.replicate 32 0x00), Ev.rd 0xc140,
             Ev.wr 0x8000 (List.replicate 32 0xfe)] := rfl
      intro d
      rw [hl]
      simp
    · obtain ⟨k, rfl⟩ : ∃ k, c = k + 5 := ⟨c - 5, by omega⟩
      refine ⟨rfl, ?_⟩
      have hl : logOf (cmd_restore_cartridge_sram tpakBus (freshSt (headerMem (k + 5)) inp))
          = [Ev.rd 0x8000, Ev.wr 0x8000 (List.replicate 32 0x84), Ev.rd 0x8000,
             Ev.wr 0x8000 (List.replicate 32 0xfe), Ev.wr 0x8000 (List.replicate 32 0x00),
             Ev.wr 0x8000 (List.replicate 32 0x84), Ev.wr 0xb000 (List.replicate 32 0x01),
             Ev.rd 0xb000, Ev.wr 0xa000 (List.replicate 32 0x00), Ev.rd 0xc140,
             Ev.wr 0x8000 (List.replicate 32 0xfe)] := rfl
      intro d
      rw [hl]
      simp
  
/-- Witness for C6: RAM size code 0 aborts the dump with no RAM-enable
write. -/
theorem c6_ram_size_abort_witness :
    errOf (cmd_dump_cartridge_sram tpakBus (freshSt (headerMem 0) [])) = some .sysExit
    ∧ Ev.wr 0xc000 (List.replicate 32 0x0a)
        ∉ logOf (cmd_dump_cartridge_sram tpakBus (freshSt (headerMem 0) [])) := by
  have h := c6_ram_size_abort.2.1 0 [] (Or.inr rfl)
  exact ⟨h.1, h.2 (List.replicate 32 0x0a)⟩

/-- C1 counterexample: at the valid address 0x8000 the code CRC is 0x01
while the algorithm as literally worded by the specification (register
seeded from `addr >>> 11` and then stepped over bits 15 down to 5) gives
0x06, so the code does not implement the claim's step sequence. -/
theorem c1_addr_crc_counterexample :
    0x8000 < 65536 ∧ 0x8000 % 32 = 0
    ∧ addr_crc 0x8000 = 0x01 ∧ addr_crc_spec_literal 0x8000 = 0x06
    ∧ addr_crc 0x8000 ≠ addr_crc_spec_literal 0x8000 := by
  refine ⟨by norm_num, by norm_num, ?_, ?_, ?_⟩ <;> decide

/-- C1 (amended): for every 16-bit address whose low five bits are zero,
`addr_crc` computes the standard bit-serial CRC (generator polynomial
0x15, 5-bit register reduced with 0x35 whenever bit 0x20 becomes set) of
the eleven address bits above the reserved low five, most-significant
first, from a zero seed and followed by five zero augmentation steps for
the reserved bits - equivalently, it seeds the register with
`addr >>> 11` and steps over bits 10 down to 0 - and the result is always
strictly below 0x20. -/
theorem c1_addr_crc_amended (addr : Nat) (h1 : addr < 65536) (h2 : addr % 32 = 0) :
    addr_crc addr = addr_crc_standard addr ∧ addr_crc addr < 0x20 :=
  addr_crc_valid_facts addr h1 h2

/-- Witness for C1 (amended) at address 0x8000. -/
theorem c1_addr_crc_witness :
    addr_crc 0x8000 = addr_crc_standard 0x8000 ∧ addr_crc 0x8000 < 0x20 :=
  c1_addr_crc_amended 0x8000 (by norm_num) (by norm_num)

/-- C9: `addr_crc 0 = 0`, and re-deriving the CRC of an address with its
own CRC inserted in the low bits, masked back to the original address,
gives the same CRC. -/
theorem c9_crc_idempotent :
    addr_crc 0x0000 = 0x00
    ∧ ∀ addr : Nat, addr < 65536 → addr % 32 = 0 →
        addr_crc ((addr ||| addr_crc addr) &&& 0xffe0) = addr_crc addr := by
  refine ⟨rfl, ?_⟩
  intro addr h1 h2
  rw [or_low_mask_eq addr (addr_crc addr) h1 h2 (addr_crc_valid_facts addr h1 h2).2]

/-- Witness for C9 at address 0x8000. -/
theorem c9_crc_idempotent_witness :
    addr_crc ((0x8000 ||| addr_crc 0x8000) &&& 0xffe0) = addr_crc 0x8000 :=
  c9_crc_idempotent.2 0x8000 (by norm_num) (by norm_num)

end N64
